import Mathlib

/-!
Shallow embedding of the wiretrustee peer-connection engine
(`connection/engine.go`) and the configuration persistence code
(`cmd/config.go`), together with theorems settling the spec claims.

Conventions of the embedding:
* WireGuard keys are modelled by their canonical string form; the external
  function `wgtypes.ParseKey` (whose error is ignored by the engine) composed
  with `Key.String()` is an abstract `keyOfString : String → String` supplied
  by an `Ext` environment structure.
* Pointer identity of `*Connection` values is modelled by a `connId : Nat`
  drawn from a counter in the engine state; the set of connections on which
  `Close()` has been called is recorded in the `closed` field, so that
  "the Connection was closed" is observable.
* Each engine operation additionally returns a `List Event` trace recording
  mutex acquisitions/releases and connection-map reads/writes, in the order
  they occur in the Go source; this makes the locking discipline provable.
* Blocking external calls (`Connection.Open`, `Connection.Close`,
  `signal.UnMarshalCredential`, `ice.UnmarshalCandidate`, the `OnOffer` /
  `OnAnswer` / `OnRemoteCandidate` callbacks) have their outcomes passed in as
  parameters or drawn from `Ext`, since their implementations live outside
  `engine.go`.
-/

namespace Wiretrustee

/-- Observable status of a Connection (`conn.Status` in `engine.go`; the
`Status` type itself is defined outside `engine.go`, states per the spec). -/
inductive Status where
  | statusNew
  | negotiating
  | connected
  | closed
  | failed
deriving DecidableEq, Repr

/-- STUN/TURN URL (`ice.URL`): exported fields Scheme, Host, Port, Username,
Password, Proto; the two enumerations are modelled as numbers. -/
structure URL where
  scheme : Nat
  host : String
  port : Nat
  username : String
  password : String
  proto : Nat
deriving DecidableEq, Repr

/-- `Peer` from `engine.go`: public key and allowed-IPs strings. -/
structure Peer where
  wgPubKey : String
  wgAllowedIps : String
deriving DecidableEq, Repr

/-- `ConnConfig` as built by `openPeerConnection`. Keys are canonical key
strings. -/
structure ConnConfig where
  wgListenAddr : String
  wgPeerIP : String
  wgIface : String
  wgAllowedIPs : String
  wgKey : String
  remoteWgKey : String
  stunTurnURLs : List URL
  iFaceBlackList : List String
deriving DecidableEq, Repr

/-- A `*Connection` value: `connId` models pointer identity, `config` is the
`Config` field read by `receiveSignal`, `status` the `Status` field read by
`GetPeerConnectionStatus`. -/
structure Connection where
  connId : Nat
  config : ConnConfig
  status : Status
deriving DecidableEq, Repr

/-- The connection map `conns map[string]*Connection`, as an association
list. -/
abbrev ConnMap := List (String × Connection)

/-- Go map lookup `m[k]`. -/
def mapLookup : ConnMap → String → Option Connection
  | [], _ => none
  | (k, v) :: rest, key => if k = key then some v else mapLookup rest key

/-- Go map store `m[k] = v` (replaces any existing binding). -/
def mapInsert : ConnMap → String → Connection → ConnMap
  | [], key, v => [(key, v)]
  | (k, w) :: rest, key, v =>
    if k = key then (key, v) :: rest else (k, w) :: mapInsert rest key v

/-- Go map `delete(m, k)`. -/
def mapErase : ConnMap → String → ConnMap
  | [], _ => []
  | (k, w) :: rest, key =>
    if k = key then rest else (k, w) :: mapErase rest key

/-- Events traced by the embedded operations: mutex lock/unlock and accesses
to the shared connection map. -/
inductive Event where
  | lock
  | unlock
  | mapRead
  | mapWrite
deriving DecidableEq, Repr

/-- `mutexOk d tr` holds when every map access in `tr` happens while the
mutex is held (`d` is the current hold depth). -/
def mutexOk : Nat → List Event → Bool
  | _, [] => true
  | d, .lock :: es => mutexOk (d + 1) es
  | d, .unlock :: es => mutexOk (d - 1) es
  | d, .mapRead :: es => decide (0 < d) && mutexOk d es
  | d, .mapWrite :: es => decide (0 < d) && mutexOk d es

/-- Engine state (`Engine` struct): the fields that influence the modelled
behavior, plus the two bookkeeping fields `nextConnId` (pointer identity
source for `NewConnection`) and `closed` (ids of connections whose `Close()`
was invoked). -/
structure Engine where
  stunsTurns : List URL
  conns : ConnMap
  wgIface : String
  wgIP : String
  iFaceBlackList : List String
  nextConnId : Nat
  closed : List Nat
deriving DecidableEq, Repr

/-- `NewEngine`: empty connection map, fresh mutex. -/
def newEngine (stunsTurns : List URL) (wgIface : String) (wgAddr : String)
    (iFaceBlackList : List String) : Engine :=
  { stunsTurns := stunsTurns
    conns := []
    wgIface := wgIface
    wgIP := wgAddr
    iFaceBlackList := iFaceBlackList
    nextConnId := 0
    closed := [] }

/-- Signal message body types (`sProto.Body_Type`). -/
inductive BodyType where
  | offer
  | answer
  | candidate
deriving DecidableEq, Repr

/-- Signal message body: type tag and opaque payload. -/
structure Body where
  type : BodyType
  payload : String
deriving DecidableEq, Repr

/-- Signal message envelope (`sProto.Message`): `key` is the sender's key,
`remoteKey` the recipient's. -/
structure Message where
  key : String
  remoteKey : String
  body : Body
deriving DecidableEq, Repr

/-- `IceCredentials` handed to `OnOffer` / `OnAnswer`. -/
structure IceCredentials where
  uFrag : String
  pwd : String
deriving DecidableEq, Repr

/-- Environment of external functions used by the engine but defined outside
`engine.go`: key parsing/printing (`wgtypes.ParseKey` with its error ignored,
composed with `Key.String()`), the signal/ICE deserializers, and the
Connection callbacks invoked by `receiveSignal`. Candidates are kept as their
marshalled strings. -/
structure Ext where
  keyOfString : String → String
  unmarshalCredential : Message → Except String IceCredentials
  unmarshalCandidate : String → Except String String
  onOffer : Connection → IceCredentials → Option String
  onAnswer : Connection → IceCredentials → Option String
  onRemoteCandidate : Connection → String → Option String

/-- The `ConnConfig` literal built inside `openPeerConnection`. -/
def connConfigFor (ext : Ext) (e : Engine) (wgPort : Nat) (myKey : String)
    (peer : Peer) : ConnConfig :=
  { wgListenAddr := "127.0.0.1:" ++ toString wgPort
    wgPeerIP := e.wgIP
    wgIface := e.wgIface
    wgAllowedIPs := peer.wgAllowedIps
    wgKey := myKey
    remoteWgKey := ext.keyOfString peer.wgPubKey
    stunTurnURLs := e.stunsTurns
    iFaceBlackList := e.iFaceBlackList }

/-- The `*Connection` produced by `NewConnection` inside
`openPeerConnection`. -/
def newConnFor (ext : Ext) (e : Engine) (wgPort : Nat) (myKey : String)
    (peer : Peer) : Connection :=
  { connId := e.nextConnId
    config := connConfigFor ext e wgPort myKey peer
    status := Status.statusNew }

/-- Result of `openPeerConnection`: the Go `(*Connection, error)` pair plus
the engine state and the lock/map-access trace. -/
structure OpenResult where
  conn : Option Connection
  err : Option String
  engine : Engine
  trace : List Event
deriving Repr

/-- `openPeerConnection` (engine.go:175-210): under the mutex, parse the
remote key (parse error ignored), build the config, construct the Connection
and store it in the map; release the mutex, then the blocking
`conn.Open(PeerConnectionTimeout)` call runs, whose outcome is the parameter
`openResult` (`none` = opened, `some err` = failure or timeout). -/
def openPeerConnection (ext : Ext) (e : Engine) (wgPort : Nat) (myKey : String)
    (peer : Peer) (openResult : Option String) : OpenResult :=
  let remoteKey := ext.keyOfString peer.wgPubKey
  let conn := newConnFor ext e wgPort myKey peer
  let e1 : Engine := { e with
    conns := mapInsert e.conns remoteKey conn
    nextConnId := e.nextConnId + 1 }
  match openResult with
  | some err =>
    { conn := none, err := some err, engine := e1
      trace := [Event.lock, Event.mapWrite, Event.unlock] }
  | none =>
    { conn := some conn, err := none, engine := e1
      trace := [Event.lock, Event.mapWrite, Event.unlock] }

/-- Result of the post-attempt check inside `InitializePeer`'s retry
operation. -/
structure CheckResult where
  err : Option String
  trace : List Event
deriving DecidableEq, Repr

/-- The decision made under the mutex after each attempt inside
`InitializePeer`'s `operation` closure (engine.go:127-139): `attemptErr` is
the error returned by `openPeerConnection`, `e2` the engine state observed
once the mutex is acquired (other tasks may have run in between). If the
peer's map entry is gone, return nil (stop retrying); else return the
attempt's error (retry on failure, stop on success). -/
def initOperationCheck (peer : Peer) (attemptErr : Option String)
    (e2 : Engine) : CheckResult :=
  match mapLookup e2.conns peer.wgPubKey with
  | none => { err := none, trace := [Event.lock, Event.mapRead, Event.unlock] }
  | some _ =>
    match attemptErr with
    | some err =>
      { err := some err, trace := [Event.lock, Event.mapRead, Event.unlock] }
    | none =>
      { err := none, trace := [Event.lock, Event.mapRead, Event.unlock] }

/-- One full execution of `InitializePeer`'s `operation` closure with no
interleaving between the attempt and the check: the attempt runs against `e`,
the check against the resulting state. Returns the operation's error, the
engine state, and the combined trace. -/
def initOperation (ext : Ext) (e : Engine) (wgPort : Nat) (myKey : String)
    (peer : Peer) (openResult : Option String) :
    Option String × Engine × List Event :=
  let r := openPeerConnection ext e wgPort myKey peer openResult
  let c := initOperationCheck peer r.err r.engine
  (c.err, r.engine, r.trace ++ c.trace)

/-- Result of `RemovePeerConnection`. -/
structure RemoveResult where
  err : Option String
  engine : Engine
  trace : List Event
deriving Repr

/-- `RemovePeerConnection` (engine.go:150-159): under the mutex, if an entry
exists for the peer's public key, delete it and call `conn.Close()` (whose
outcome is the parameter `closeResult`, recorded in `closed`); otherwise
return nil. (The Go code also guards against a nil `*Connection` in the map;
no reachable state stores nil, and the model's map holds only real
connections.) -/
def removePeerConnection (e : Engine) (peer : Peer)
    (closeResult : Option String) : RemoveResult :=
  match mapLookup e.conns peer.wgPubKey with
  | some conn =>
    { err := closeResult
      engine := { e with
        conns := mapErase e.conns peer.wgPubKey
        closed := e.closed ++ [conn.connId] }
      trace := [Event.lock, Event.mapRead, Event.mapWrite, Event.unlock] }
  | none =>
    { err := none, engine := e
      trace := [Event.lock, Event.mapRead, Event.unlock] }

/-- `GetPeerConnectionStatus` (engine.go:162-172): under the mutex, return
the Connection's status, or none if the peer has no entry. -/
def getPeerConnectionStatus (e : Engine) (peerKey : String) :
    Option Status × List Event :=
  match mapLookup e.conns peerKey with
  | some conn => (some conn.status, [Event.lock, Event.mapRead, Event.unlock])
  | none => (none, [Event.lock, Event.mapRead, Event.unlock])

/-- Errors the `receiveSignal` handler can return, distinguished by the
`fmt.Errorf` site producing them. -/
inductive HandlerErr where
  | wronglyAddressed (key : String)
  | unknownPeer (key : String)
  | credentialErr (e : String)
  | candidateParse (e : String)
  | connCallback (e : String)
deriving DecidableEq, Repr

/-- A Connection callback invocation made by the handler. -/
inductive Dispatch where
  | dOnOffer (cred : IceCredentials)
  | dOnAnswer (cred : IceCredentials)
  | dOnRemoteCandidate (candidate : String)
deriving DecidableEq, Repr

/-- Result of one run of the `receiveSignal` handler: the Go `error` return,
the list of Connection callbacks it invoked, the connection map after the
run, and the lock/map-access trace. -/
structure HandlerResult where
  result : Except HandlerErr Unit
  calls : List Dispatch
  conns : ConnMap
  trace : List Event
deriving Repr

/-- The `switch msg.GetBody().Type` dispatch of the `receiveSignal` handler
(engine.go:266-309), once the Connection has been found and its remote key
checked: deserialize and invoke the matching Connection callback, propagating
deserialization and callback errors. Returns the Go `error` and the callback
invocations made. -/
def handlerOutcome (ext : Ext) (conn : Connection) (msg : Message) :
    Except HandlerErr Unit × List Dispatch :=
  match msg.body.type with
  | BodyType.offer =>
    match ext.unmarshalCredential msg with
    | Except.error e => (Except.error (HandlerErr.credentialErr e), [])
    | Except.ok cred =>
      match ext.onOffer conn cred with
      | some e =>
        (Except.error (HandlerErr.connCallback e), [Dispatch.dOnOffer cred])
      | none => (Except.ok (), [Dispatch.dOnOffer cred])
  | BodyType.answer =>
    match ext.unmarshalCredential msg with
    | Except.error e => (Except.error (HandlerErr.credentialErr e), [])
    | Except.ok cred =>
      match ext.onAnswer conn cred with
      | some e =>
        (Except.error (HandlerErr.connCallback e), [Dispatch.dOnAnswer cred])
      | none => (Except.ok (), [Dispatch.dOnAnswer cred])
  | BodyType.candidate =>
    match ext.unmarshalCandidate msg.body.payload with
    | Except.error e => (Except.error (HandlerErr.candidateParse e), [])
    | Except.ok candidate =>
      match ext.onRemoteCandidate conn candidate with
      | some e =>
        (Except.error (HandlerErr.connCallback e),
         [Dispatch.dOnRemoteCandidate candidate])
      | none => (Except.ok (), [Dispatch.dOnRemoteCandidate candidate])

/-- The closure registered by `receiveSignal` (engine.go:255-312): look up
the sender's Connection in the map (note: without taking `PeerMux`); error if
absent or if the Connection's configured remote key differs from the sender;
otherwise dispatch on the body type via `handlerOutcome`. The handler never
writes the map. -/
def receiveSignalHandler (ext : Ext) (conns : ConnMap) (msg : Message) :
    HandlerResult :=
  match mapLookup conns msg.key with
  | none =>
    { result := Except.error (HandlerErr.wronglyAddressed msg.key)
      calls := [], conns := conns, trace := [Event.mapRead] }
  | some conn =>
    if conn.config.remoteWgKey ≠ msg.key then
      { result := Except.error (HandlerErr.unknownPeer msg.key)
        calls := [], conns := conns, trace := [Event.mapRead] }
    else
      { result := (handlerOutcome ext conn msg).1
        calls := (handlerOutcome ext conn msg).2
        conns := conns, trace := [Event.mapRead] }

/-- Modelled from the spec: the exponential-backoff policy of the external
`backoff` package, whose implementation is not part of this repository.
Intervals are milliseconds; the multiplier 1.5 is the rational
`multiplierNum / multiplierDen`. Per the spec, the delay is capped at
`maxInterval` and a `maxElapsedTime` of 0 means the attempt sequence never
expires. -/
structure ExponentialBackOff where
  initialInterval : Nat
  multiplierNum : Nat
  multiplierDen : Nat
  maxInterval : Nat
  maxElapsedTime : Nat
deriving DecidableEq, Repr

/-- Modelled from the spec: one step of the backoff policy. Given the current
interval and the elapsed time, return `none` (Stop) when the policy expires
(`maxElapsedTime` nonzero and exceeded), otherwise the delay before the next
attempt (current interval capped at `maxInterval`) and the grown current
interval, also capped at `maxInterval`. -/
def nextBackOff (b : ExponentialBackOff) (cur elapsed : Nat) :
    Option (Nat × Nat) :=
  if b.maxElapsedTime ≠ 0 ∧ b.maxElapsedTime ≤ elapsed then none
  else
    some (min cur b.maxInterval,
          min (cur * b.multiplierNum / b.multiplierDen) b.maxInterval)

/-- The backoff policy built in `InitializePeer` (engine.go:116-124):
standard defaults for the initial interval (500ms) and multiplier (1.5),
`MaxInterval` 5 seconds, `MaxElapsedTime` 0 — never stop. -/
def engineBackOff : ExponentialBackOff :=
  { initialInterval := 500
    multiplierNum := 3
    multiplierDen := 2
    maxInterval := 5000
    maxElapsedTime := 0 }

/-- Modelled from the spec: the `backoff.Retry` loop, fuel-indexed so it is a
total function. `op n` is the outcome of attempt `n`. Returns `none` while
the fuel runs out with the loop still retrying; `some none` when an attempt
returns nil (Retry returns nil); `some (some err)` when the policy stops
after a failed attempt (Retry returns the error — the branch `InitializePeer`
answers with a panic). -/
def retryFuel (op : Nat → Option String) (b : ExponentialBackOff) :
    Nat → Nat → Nat → Nat → Option (Option String)
  | 0, _, _, _ => none
  | fuel + 1, n, cur, elapsed =>
    match op n with
    | none => some none
    | some err =>
      match nextBackOff b cur elapsed with
      | none => some (some err)
      | some (delay, cur2) => retryFuel op b fuel (n + 1) cur2 (elapsed + delay)

/-- `Config` from `cmd/config.go`: the exported fields persisted as JSON. -/
structure Config where
  privateKey : String
  peers : List Peer
  stunTurnURLs : List URL
  signalAddr : String
  wgAddr : String
  wgIface : String
  iFaceBlackList : List String
deriving DecidableEq, Repr

/-- JSON values, the image of `encoding/json` marshalling. -/
inductive Json where
  | null
  | jStr (s : String)
  | jNum (n : Nat)
  | jArr (xs : List Json)
  | jObj (fields : List (String × Json))

/-- Look up a field of a JSON object. -/
def jsonField : List (String × Json) → String → Option Json
  | [], _ => none
  | (k, v) :: rest, key => if k = key then some v else jsonField rest key

/-- `json.Marshal` of a `connection.Peer` value. -/
def Peer.toJson (p : Peer) : Json :=
  Json.jObj [("WgPubKey", Json.jStr p.wgPubKey),
             ("WgAllowedIps", Json.jStr p.wgAllowedIps)]

/-- `json.Unmarshal` into a `connection.Peer` value. -/
def Peer.fromJson : Json → Option Peer
  | Json.jObj fields =>
    match jsonField fields "WgPubKey", jsonField fields "WgAllowedIps" with
    | some (Json.jStr a), some (Json.jStr b) =>
      some { wgPubKey := a, wgAllowedIps := b }
    | _, _ => none
  | _ => none

/-- `json.Marshal` of an `ice.URL` value. -/
def URL.toJson (u : URL) : Json :=
  Json.jObj [("Scheme", Json.jNum u.scheme),
             ("Host", Json.jStr u.host),
             ("Port", Json.jNum u.port),
             ("Username", Json.jStr u.username),
             ("Password", Json.jStr u.password),
             ("Proto", Json.jNum u.proto)]

/-- `json.Unmarshal` into an `ice.URL` value. -/
def URL.fromJson : Json → Option URL
  | Json.jObj fields =>
    match jsonField fields "Scheme", jsonField fields "Host",
          jsonField fields "Port", jsonField fields "Username",
          jsonField fields "Password", jsonField fields "Proto" with
    | some (Json.jNum sc), some (Json.jStr h), some (Json.jNum p),
      some (Json.jStr user), some (Json.jStr pass), some (Json.jNum pr) =>
      some { scheme := sc, host := h, port := p, username := user,
             password := pass, proto := pr }
    | _, _, _, _, _, _ => none
  | _ => none

/-- Decode every element of a JSON array. -/
def decodeAll (f : Json → Option α) : List Json → Option (List α)
  | [] => some []
  | j :: rest =>
    match f j, decodeAll f rest with
    | some a, some as => some (a :: as)
    | _, _ => none

/-- `json.Marshal` of a `Config` value, field names as in `cmd/config.go`. -/
def Config.toJson (c : Config) : Json :=
  Json.jObj [("PrivateKey", Json.jStr c.privateKey),
             ("Peers", Json.jArr (c.peers.map Peer.toJson)),
             ("StunTurnURLs", Json.jArr (c.stunTurnURLs.map URL.toJson)),
             ("SignalAddr", Json.jStr c.signalAddr),
             ("WgAddr", Json.jStr c.wgAddr),
             ("WgIface", Json.jStr c.wgIface),
             ("IFaceBlackList",
              Json.jArr (c.iFaceBlackList.map Json.jStr))]

/-- `json.Unmarshal` into a `Config` value. -/
def Config.fromJson : Json → Option Config
  | Json.jObj fields =>
    match jsonField fields "PrivateKey",
          jsonField fields "Peers",
          jsonField fields "StunTurnURLs",
          jsonField fields "SignalAddr",
          jsonField fields "WgAddr",
          jsonField fields "WgIface",
          jsonField fields "IFaceBlackList" with
    | some (Json.jStr pk), some (Json.jArr ps), some (Json.jArr us),
      some (Json.jStr sa), some (Json.jStr wa), some (Json.jStr wi),
      some (Json.jArr bl) =>
      match decodeAll Peer.fromJson ps, decodeAll URL.fromJson us,
            decodeAll (fun j => match j with
                                | Json.jStr s => some s
                                | _ => none) bl with
      | some peers, some urls, some black =>
        some { privateKey := pk, peers := peers, stunTurnURLs := urls,
               signalAddr := sa, wgAddr := wa, wgIface := wi,
               iFaceBlackList := black }
      | _, _, _ => none
    | _, _, _, _, _, _, _ => none
  | _ => none

/-- The filesystem as seen by `Config.Write` / `Read`: a map from paths to
the JSON document stored at that path. -/
abbrev FileSys := List (String × Json)

/-- Store a file. -/
def fsStore : FileSys → String → Json → FileSys
  | [], path, j => [(path, j)]
  | (p, w) :: rest, path, j =>
    if p = path then (path, j) :: rest else (p, w) :: fsStore rest path j

/-- Read a file. -/
def fsLoad : FileSys → String → Option Json
  | [], _ => none
  | (p, w) :: rest, path => if p = path then some w else fsLoad rest path

/-- `Config.Write` (cmd/config.go:26-47): marshal the config and write the
bytes to `path`. (The `MkdirAll` performed for the default path affects only
directories, not the file contents, and is not modelled.) -/
def Config.write (cfg : Config) (path : String) (fs : FileSys) : FileSys :=
  fsStore fs path cfg.toJson

/-- `Read` (cmd/config.go:50-69): open and read the file at `path` and
unmarshal a `Config` from it; errors (missing file, bad JSON) become
`none`. -/
def readConfig (path : String) (fs : FileSys) : Option Config :=
  match fsLoad fs path with
  | none => none
  | some j => Config.fromJson j

/-- Engine states reachable by the map-mutating operations: a fresh
`NewEngine` followed by any interleaving of `openPeerConnection` and
`RemovePeerConnection` calls (`GetPeerConnectionStatus` and the
`receiveSignal` handler never write the map). -/
inductive Reachable (ext : Ext) : Engine → Prop where
  | init : ∀ stuns wgIface wgAddr blackList,
      Reachable ext (newEngine stuns wgIface wgAddr blackList)
  | openStep : ∀ e wgPort myKey peer res, Reachable ext e →
      Reachable ext (openPeerConnection ext e wgPort myKey peer res).engine
  | removeStep : ∀ e peer closeRes, Reachable ext e →
      Reachable ext (removePeerConnection e peer closeRes).engine

/-- Invariant of the connection map: every stored binding's Connection is
configured with the remote key string it is stored under. -/
def connMapKeyed (conns : ConnMap) : Prop :=
  ∀ p : String × Connection, p ∈ conns → p.2.config.remoteWgKey = p.1

/-- A concrete external environment used for evaluating the model: keys are
already canonical, OFFER/ANSWER payloads are `"ufrag:pwd"`, the candidate
payload `"bad"` fails to deserialize, and the Connection callbacks accept
every message. -/
def idExt : Ext :=
  { keyOfString := fun s => s
    unmarshalCredential := fun msg =>
      match msg.body.payload.splitOn ":" with
      | [u, p] => Except.ok { uFrag := u, pwd := p }
      | _ => Except.error "invalid credential"
    unmarshalCandidate := fun s =>
      if s = "bad" then Except.error "failed to parse" else Except.ok s
    onOffer := fun _ _ => none
    onAnswer := fun _ _ => none
    onRemoteCandidate := fun _ _ => none }

/-- Sample peer. -/
def peerA : Peer := { wgPubKey := "keyA", wgAllowedIps := "10.0.0.2/32" }

/-- Sample Connection stored for `peerA`. -/
def connA : Connection :=
  { connId := 0
    config := { wgListenAddr := "127.0.0.1:51820"
                wgPeerIP := "10.0.0.1"
                wgIface := "wt0"
                wgAllowedIPs := "10.0.0.2/32"
                wgKey := "me"
                remoteWgKey := "keyA"
                stunTurnURLs := []
                iFaceBlackList := [] }
    status := Status.statusNew }

/-- Sample empty engine (fresh `NewEngine`). -/
def engineEmpty : Engine := newEngine [] "wt0" "10.0.0.1" []

/-- Sample engine holding one connection for `peerA`. -/
def engineA : Engine :=
  { engineEmpty with conns := [("keyA", connA)], nextConnId := 1 }

/-- Sample OFFER message from `peerA`. -/
def msgOfferA : Message :=
  { key := "keyA", remoteKey := "me"
    body := { type := BodyType.offer, payload := "u:p" } }

/-- Sample CANDIDATE message with an unparseable payload. -/
def msgCandBad : Message :=
  { key := "keyA", remoteKey := "me"
    body := { type := BodyType.candidate, payload := "bad" } }

/-- Sample CANDIDATE message with a valid payload. -/
def msgCandGood : Message :=
  { key := "keyA", remoteKey := "me"
    body := { type := BodyType.candidate, payload := "cand1" } }

/-- Sample message from a sender with no Connection. -/
def msgUnknown : Message :=
  { key := "keyX", remoteKey := "me"
    body := { type := BodyType.offer, payload := "u:p" } }

/-! ### Map and trace lemmas -/

theorem mapLookup_mapInsert_self (m : ConnMap) (k : String) (v : Connection) :
    mapLookup (mapInsert m k v) k = some v := by
  induction m with
  | nil => simp [mapInsert, mapLookup]
  | cons p rest ih =>
    obtain ⟨k', w⟩ := p
    by_cases hk : k' = k
    · subst hk; simp [mapInsert, mapLookup]
    · simp [mapInsert, mapLookup, hk, ih]

theorem mapLookup_mapInsert_ne (m : ConnMap) {k k' : String} (v : Connection)
    (h : k' ≠ k) : mapLookup (mapInsert m k v) k' = mapLookup m k' := by
  have hk'' : ¬k = k' := fun he => h he.symm
  induction m with
  | nil => simp [mapInsert, mapLookup, hk'']
  | cons p rest ih =>
    obtain ⟨k0, w⟩ := p
    by_cases hk : k0 = k
    · subst hk; simp [mapInsert, mapLookup, hk'']
    · simp only [mapInsert, hk, if_false]
      by_cases hk' : k0 = k' <;> simp [mapLookup, hk', ih]

theorem mapLookup_mem {m : ConnMap} {k : String} {c : Connection}
    (h : mapLookup m k = some c) : (k, c) ∈ m := by
  induction m with
  | nil => simp [mapLookup] at h
  | cons p rest ih =>
    obtain ⟨k', w⟩ := p
    by_cases hk : k' = k
    · subst hk
      simp [mapLookup] at h
      subst h
      exact List.mem_cons_self _ _
    · simp [mapLookup, hk] at h
      exact List.mem_cons_of_mem _ (ih h)

theorem mem_mapInsert {m : ConnMap} {k : String} {v : Connection}
    {x : String × Connection} (h : x ∈ mapInsert m k v) :
    x = (k, v) ∨ x ∈ m := by
  induction m with
  | nil => simp [mapInsert] at h; simp [h]
  | cons p rest ih =>
    obtain ⟨k', w⟩ := p
    by_cases hk : k' = k
    · subst hk
      simp [mapInsert] at h
      rcases h with h | h
      · exact Or.inl h
      · exact Or.inr (List.mem_cons_of_mem _ h)
    · simp [mapInsert, hk] at h
      rcases h with h | h
      · exact Or.inr (by simp [h])
      · rcases ih h with h' | h'
        · exact Or.inl h'
        · exact Or.inr (List.mem_cons_of_mem _ h')

theorem mem_mapErase {m : ConnMap} {k : String} {x : String × Connection}
    (h : x ∈ mapErase m k) : x ∈ m := by
  induction m with
  | nil => simp [mapErase] at h
  | cons p rest ih =>
    obtain ⟨k', w⟩ := p
    by_cases hk : k' = k
    · subst hk
      simp [mapErase] at h
      exact List.mem_cons_of_mem _ h
    · simp [mapErase, hk] at h
      rcases h with h | h
      · simp [h]
      · exact List.mem_cons_of_mem _ (ih h)

theorem openPeerConnection_engine (ext : Ext) (e : Engine) (wgPort : Nat)
    (myKey : String) (peer : Peer) (res : Option String) :
    (openPeerConnection ext e wgPort myKey peer res).engine =
      { e with
        conns := mapInsert e.conns (ext.keyOfString peer.wgPubKey)
                   (newConnFor ext e wgPort myKey peer)
        nextConnId := e.nextConnId + 1 } := by
  cases res <;> rfl

theorem openPeerConnection_trace (ext : Ext) (e : Engine) (wgPort : Nat)
    (myKey : String) (peer : Peer) (res : Option String) :
    (openPeerConnection ext e wgPort myKey peer res).trace =
      [Event.lock, Event.mapWrite, Event.unlock] := by
  cases res <;> rfl

theorem initOperationCheck_trace (peer : Peer) (attemptErr : Option String)
    (e2 : Engine) :
    (initOperationCheck peer attemptErr e2).trace =
      [Event.lock, Event.mapRead, Event.unlock] := by
  unfold initOperationCheck
  cases mapLookup e2.conns peer.wgPubKey with
  | none => rfl
  | some c => cases attemptErr <;> rfl

theorem receiveSignalHandler_trace (ext : Ext) (conns : ConnMap)
    (msg : Message) :
    (receiveSignalHandler ext conns msg).trace = [Event.mapRead] := by
  unfold receiveSignalHandler
  cases mapLookup conns msg.key with
  | none => rfl
  | some conn =>
    by_cases hk : conn.config.remoteWgKey ≠ msg.key <;> simp [hk]

theorem receiveSignalHandler_conns (ext : Ext) (conns : ConnMap)
    (msg : Message) :
    (receiveSignalHandler ext conns msg).conns = conns := by
  unfold receiveSignalHandler
  cases mapLookup conns msg.key with
  | none => rfl
  | some conn =>
    by_cases hk : conn.config.remoteWgKey ≠ msg.key <;> simp [hk]

theorem reachable_keyed {ext : Ext} {e : Engine} (h : Reachable ext e) :
    connMapKeyed e.conns := by
  induction h with
  | init stuns wgIface wgAddr blackList =>
    intro p hp
    simp [newEngine] at hp
  | openStep e wgPort myKey peer res _ ih =>
    intro p hp
    rw [openPeerConnection_engine] at hp
    simp only at hp
    rcases mem_mapInsert hp with h' | h'
    · subst h'
      rfl
    · exact ih p h'
  | removeStep e peer closeRes _ ih =>
    intro p hp
    unfold removePeerConnection at hp
    cases hl : mapLookup e.conns peer.wgPubKey with
    | none =>
      rw [hl] at hp
      exact ih p hp
    | some conn =>
      rw [hl] at hp
      simp only at hp
      exact ih p (mem_mapErase hp)

theorem fsLoad_fsStore (fs : FileSys) (path : String) (j : Json) :
    fsLoad (fsStore fs path j) path = some j := by
  induction fs with
  | nil => simp [fsStore, fsLoad]
  | cons p rest ih =>
    obtain ⟨p', w⟩ := p
    by_cases hp : p' = path
    · subst hp; simp [fsStore, fsLoad]
    · simp [fsStore, fsLoad, hp, ih]

theorem peer_roundTrip (p : Peer) : Peer.fromJson (Peer.toJson p) = some p := by
  rfl

theorem url_roundTrip (u : URL) : URL.fromJson (URL.toJson u) = some u := by
  rfl

theorem decodeAll_map {α : Type} (f : α → Json) (g : Json → Option α)
    (h : ∀ a, g (f a) = some a) (xs : List α) :
    decodeAll g (xs.map f) = some xs := by
  induction xs with
  | nil => rfl
  | cons x rest ih => simp [decodeAll, h, ih]

theorem config_roundTrip (cfg : Config) :
    Config.fromJson (Config.toJson cfg) = some cfg := by
  have hp := decodeAll_map Peer.toJson Peer.fromJson peer_roundTrip cfg.peers
  have hu := decodeAll_map URL.toJson URL.fromJson url_roundTrip
    cfg.stunTurnURLs
  have hb := decodeAll_map Json.jStr
    (fun j => match j with | Json.jStr s => some s | _ => none)
    (fun _ => rfl) cfg.iFaceBlackList
  simp [Config.toJson, Config.fromJson, jsonField, hp, hu, hb]

theorem initOperation_trace (ext : Ext) (e : Engine) (wgPort : Nat)
    (myKey : String) (peer : Peer) (res : Option String) :
    (initOperation ext e wgPort myKey peer res).2.2
      = [Event.lock, Event.mapWrite, Event.unlock,
         Event.lock, Event.mapRead, Event.unlock] := by
  show (openPeerConnection ext e wgPort myKey peer res).trace
      ++ (initOperationCheck peer _ _).trace = _
  rw [openPeerConnection_trace, initOperationCheck_trace]
  rfl

theorem nextBackOff_engine (cur elapsed : Nat) :
    nextBackOff engineBackOff cur elapsed
      = some (min cur 5000, min (cur * 3 / 2) 5000) := by
  simp [nextBackOff, engineBackOff]

theorem handlerOutcome_not_addressing (ext : Ext) (conn : Connection)
    (msg : Message) (k : String) :
    (handlerOutcome ext conn msg).1
      ≠ Except.error (HandlerErr.unknownPeer k) := by
  unfold handlerOutcome
  split <;> split <;> (try split) <;> simp

/-! ### Claim theorems -/

/-- C3: the decision `InitializePeer`'s retry operation makes under the mutex
after each attempt: if the peer's map entry no longer exists, the operation
returns no error (retrying stops) regardless of the attempt's result; if the
attempt failed and the entry still exists, the operation returns the error so
the backoff policy retries; if the attempt succeeded and the entry exists,
the operation returns no error and retrying stops. -/
theorem c3_retry_decision (peer : Peer) (attemptErr : Option String)
    (e2 : Engine) :
    (mapLookup e2.conns peer.wgPubKey = none →
       (initOperationCheck peer attemptErr e2).err = none) ∧
    (∀ c err, mapLookup e2.conns peer.wgPubKey = some c →
       attemptErr = some err →
       (initOperationCheck peer attemptErr e2).err = some err) ∧
    (∀ c, mapLookup e2.conns peer.wgPubKey = some c → attemptErr = none →
       (initOperationCheck peer attemptErr e2).err = none) := by
  refine ⟨fun h => ?_, fun c err hc he => ?_, fun c hc he => ?_⟩ <;>
    simp [initOperationCheck, *]

/-- Witness for C3 at concrete inputs: an engine without the peer's entry
(stop without error despite a failed attempt), and one with the entry (error
propagated on failure, no error on success). -/
theorem c3_retry_decision_witness :
    (initOperationCheck peerA (some "conn failed") engineEmpty).err = none ∧
    (initOperationCheck peerA (some "conn failed") engineA).err
        = some "conn failed" ∧
    (initOperationCheck peerA none engineA).err = none :=
  ⟨(c3_retry_decision peerA (some "conn failed") engineEmpty).1 (by decide),
   (c3_retry_decision peerA (some "conn failed") engineA).2.1 connA
     "conn failed" (by decide) rfl,
   (c3_retry_decision peerA none engineA).2.2 connA (by decide) rfl⟩

/-- C4: when the blocking `conn.Open` call fails (including by timeout),
`openPeerConnection` returns an error and a nil Connection, and the entry it
stored before calling Open is still in the connection map. -/
theorem c4_open_failure_keeps_entry (ext : Ext) (e : Engine) (wgPort : Nat)
    (myKey : String) (peer : Peer) (err : String) :
    (openPeerConnection ext e wgPort myKey peer (some err)).err = some err ∧
    (openPeerConnection ext e wgPort myKey peer (some err)).conn = none ∧
    mapLookup
        (openPeerConnection ext e wgPort myKey peer (some err)).engine.conns
        (ext.keyOfString peer.wgPubKey)
      = some (newConnFor ext e wgPort myKey peer) := by
  refine ⟨rfl, rfl, ?_⟩
  rw [openPeerConnection_engine]
  exact mapLookup_mapInsert_self _ _ _

/-- C6: `RemovePeerConnection` under the mutex deletes an existing entry and
closes the underlying Connection (returning `Close`'s result); when no entry
exists it returns nil and leaves the engine unchanged, so removal of an
absent peer is an idempotent no-op. All its map accesses hold the mutex. -/
theorem c6_remove_idempotent (e : Engine) (peer : Peer)
    (closeRes : Option String) :
    (∀ conn, mapLookup e.conns peer.wgPubKey = some conn →
       (removePeerConnection e peer closeRes).engine.conns
           = mapErase e.conns peer.wgPubKey ∧
       (removePeerConnection e peer closeRes).engine.closed
           = e.closed ++ [conn.connId] ∧
       (removePeerConnection e peer closeRes).err = closeRes) ∧
    (mapLookup e.conns peer.wgPubKey = none →
       (removePeerConnection e peer closeRes).err = none ∧
       (removePeerConnection e peer closeRes).engine = e) ∧
    mutexOk 0 (removePeerConnection e peer closeRes).trace = true := by
  refine ⟨fun conn hc => ?_, fun h => ?_, ?_⟩
  · simp [removePeerConnection, hc]
  · simp [removePeerConnection, h]
  · unfold removePeerConnection
    cases mapLookup e.conns peer.wgPubKey <;> rfl

/-- Witness for C6 at concrete inputs: removing `peerA` from an engine that
holds its Connection, and from an engine without it. -/
theorem c6_remove_idempotent_witness :
    ((removePeerConnection engineA peerA none).engine.conns
        = mapErase engineA.conns "keyA" ∧
     (removePeerConnection engineA peerA none).engine.closed
        = engineA.closed ++ [connA.connId] ∧
     (removePeerConnection engineA peerA none).err = none) ∧
    ((removePeerConnection engineEmpty peerA none).err = none ∧
     (removePeerConnection engineEmpty peerA none).engine = engineEmpty) :=
  ⟨(c6_remove_idempotent engineA peerA none).1 connA (by decide),
   (c6_remove_idempotent engineEmpty peerA none).2.1 (by decide)⟩

/-- C7: an inbound message whose sender key has no Connection in the map
makes the routing handler return the addressing error and drop the message:
no Connection callback is invoked and the connection map is unchanged — in
particular an OFFER from an unknown sender creates no Connection. -/
theorem c7_unknown_sender_dropped (ext : Ext) (conns : ConnMap)
    (msg : Message) (h : mapLookup conns msg.key = none) :
    (receiveSignalHandler ext conns msg).result
        = Except.error (HandlerErr.wronglyAddressed msg.key) ∧
    (receiveSignalHandler ext conns msg).calls = [] ∧
    (receiveSignalHandler ext conns msg).conns = conns := by
  simp [receiveSignalHandler, h]

/-- Witness for C7: an OFFER from the unknown sender `"keyX"` against the
engine that only knows `peerA`. -/
theorem c7_unknown_sender_dropped_witness :
    (receiveSignalHandler idExt engineA.conns msgUnknown).result
        = Except.error (HandlerErr.wronglyAddressed "keyX") ∧
    (receiveSignalHandler idExt engineA.conns msgUnknown).calls = [] ∧
    (receiveSignalHandler idExt engineA.conns msgUnknown).conns
        = engineA.conns :=
  c7_unknown_sender_dropped idExt engineA.conns msgUnknown (by decide)

/-- C10: configuration persistence round-trip — after `cfg.Write(path)`,
`Read(path)` succeeds and returns a `Config` equal to `cfg` in all exported
fields. -/
theorem c10_config_write_read_roundtrip (cfg : Config) (path : String)
    (fs : FileSys) :
    readConfig path (Config.write cfg path fs) = some cfg := by
  simp [readConfig, Config.write, fsLoad_fsStore, config_roundTrip]

/-- C1 counterexample: `engineA` already holds a Connection (`connA`) for
`peerA`, yet after `openPeerConnection` for the same peer the earlier
Connection has not been closed (the engine's closed-set stays empty), contrary
to the claim that the replaced Connection is closed rather than leaked. -/
theorem c1_counterexample :
    mapLookup engineA.conns peerA.wgPubKey = some connA ∧
    ((openPeerConnection idExt engineA 51820 "me" peerA none).engine.closed).contains
        connA.connId = false := by
  decide

/-- C1 (amended): when `openPeerConnection` is called for a peer that already
has a map entry, the new Connection replaces the old entry under the mutex
(last writer wins) and other keys are untouched — but the earlier Connection
is not closed by `openPeerConnection` (the closed-set is unchanged), so the
replaced Connection is dropped without `Close`. -/
theorem c1_last_writer_wins (ext : Ext) (e : Engine) (wgPort : Nat)
    (myKey : String) (peer : Peer) (res : Option String) :
    mapLookup (openPeerConnection ext e wgPort myKey peer res).engine.conns
        (ext.keyOfString peer.wgPubKey)
      = some (newConnFor ext e wgPort myKey peer) ∧
    (∀ k, k ≠ ext.keyOfString peer.wgPubKey →
       mapLookup
           (openPeerConnection ext e wgPort myKey peer res).engine.conns k
         = mapLookup e.conns k) ∧
    (openPeerConnection ext e wgPort myKey peer res).engine.closed
      = e.closed := by
  refine ⟨?_, fun k hk => ?_, ?_⟩
  · rw [openPeerConnection_engine]
    exact mapLookup_mapInsert_self _ _ _
  · rw [openPeerConnection_engine]
    exact mapLookup_mapInsert_ne _ _ hk
  · rw [openPeerConnection_engine]

/-- Witness for C1 (amended) at concrete inputs: re-opening `peerA` on
`engineA`. -/
theorem c1_last_writer_wins_witness :
    mapLookup (openPeerConnection idExt engineA 51820 "me" peerA none).engine.conns
        "keyA"
      = some (newConnFor idExt engineA 51820 "me" peerA) ∧
    mapLookup (openPeerConnection idExt engineA 51820 "me" peerA none).engine.conns
        "other"
      = mapLookup engineA.conns "other" ∧
    (openPeerConnection idExt engineA 51820 "me" peerA none).engine.closed
      = engineA.closed :=
  ⟨(c1_last_writer_wins idExt engineA 51820 "me" peerA none).1,
   (c1_last_writer_wins idExt engineA 51820 "me" peerA none).2.1 "other"
     (by decide),
   (c1_last_writer_wins idExt engineA 51820 "me" peerA none).2.2⟩

/-- C2 counterexample: at a concrete input, the `receiveSignal` handler's
trace accesses the connection map with the mutex not held, contrary to the
claim that every map access of every engine operation holds `PeerMux`. -/
theorem c2_counterexample :
    mutexOk 0 (receiveSignalHandler idExt engineA.conns msgOfferA).trace
      = false := by
  decide

/-- C2 (amended): `openPeerConnection`, `InitializePeer`'s retry operation,
`RemovePeerConnection` and `GetPeerConnectionStatus` perform every connection
map access while holding `PeerMux`; the `receiveSignal` routing handler,
however, reads the map without acquiring that mutex. -/
theorem c2_locking_discipline (ext : Ext) (e e2 : Engine) (wgPort : Nat)
    (myKey : String) (peer : Peer) (res attemptErr closeRes : Option String)
    (peerKey : String) (msg : Message) :
    mutexOk 0 (openPeerConnection ext e wgPort myKey peer res).trace = true ∧
    mutexOk 0 (initOperation ext e wgPort myKey peer res).2.2 = true ∧
    mutexOk 0 (initOperationCheck peer attemptErr e2).trace = true ∧
    mutexOk 0 (removePeerConnection e peer closeRes).trace = true ∧
    mutexOk 0 (getPeerConnectionStatus e peerKey).2 = true ∧
    mutexOk 0 (receiveSignalHandler ext e.conns msg).trace = false := by
  refine ⟨?_, ?_, ?_, ?_, ?_, ?_⟩
  · rw [openPeerConnection_trace]; decide
  · rw [initOperation_trace]; decide
  · rw [initOperationCheck_trace]; decide
  · unfold removePeerConnection
    cases mapLookup e.conns peer.wgPubKey <;> rfl
  · unfold getPeerConnectionStatus
    cases mapLookup e.conns peerKey <;> rfl
  · rw [receiveSignalHandler_trace]; decide

/-- C5: the per-peer retry policy built in `InitializePeer`: the backoff's
delay is capped at the 5-second maximum interval and the policy never expires
(`MaxElapsedTime` 0), so `backoff.Retry` never stops with an error (the panic
branch is unreachable); it returns only when an attempt returns nil (success
or entry removed), and while every attempt keeps failing the loop is still
retrying after any number of steps. -/
theorem c5_backoff_never_expires :
    engineBackOff.maxInterval = 5000 ∧
    engineBackOff.maxElapsedTime = 0 ∧
    (∀ cur elapsed delay cur2,
       nextBackOff engineBackOff cur elapsed = some (delay, cur2) →
       delay ≤ 5000) ∧
    (∀ cur elapsed, nextBackOff engineBackOff cur elapsed ≠ none) ∧
    (∀ op fuel n cur elapsed err,
       retryFuel op engineBackOff fuel n cur elapsed ≠ some (some err)) ∧
    (∀ op fuel n cur elapsed,
       retryFuel op engineBackOff fuel n cur elapsed = some none →
       ∃ k, op k = none) ∧
    (∀ op fuel n cur elapsed, (∀ k, op k ≠ none) →
       retryFuel op engineBackOff fuel n cur elapsed = none) := by
  refine ⟨rfl, rfl, ?_, ?_, ?_, ?_, ?_⟩
  · intro cur elapsed delay cur2 h
    rw [nextBackOff_engine] at h
    simp only [Option.some.injEq, Prod.mk.injEq] at h
    rw [← h.1]
    exact min_le_right _ _
  · intro cur elapsed
    rw [nextBackOff_engine]
    simp
  · intro op fuel
    induction fuel with
    | zero => intro n cur elapsed err h; exact Option.noConfusion h
    | succ f ih =>
      intro n cur elapsed err h
      cases ho : op n with
      | none => simp only [retryFuel, ho] at h; simp at h
      | some e2 =>
        simp only [retryFuel, ho, nextBackOff_engine] at h
        exact ih (n + 1) _ _ err h
  · intro op fuel
    induction fuel with
    | zero => intro n cur elapsed h; exact Option.noConfusion h
    | succ f ih =>
      intro n cur elapsed h
      cases ho : op n with
      | none => exact ⟨n, ho⟩
      | some e2 =>
        simp only [retryFuel, ho, nextBackOff_engine] at h
        exact ih (n + 1) _ _ h
  · intro op fuel
    induction fuel with
    | zero => intro n cur elapsed _; rfl
    | succ f ih =>
      intro n cur elapsed hop
      cases ho : op n with
      | none => exact absurd ho (hop n)
      | some e2 =>
        simp only [retryFuel, ho, nextBackOff_engine]
        exact ih (n + 1) _ _ hop

/-- Witness for C5 at concrete inputs: the first delay is within the cap; a
run whose third attempt succeeds stops because some attempt returned nil; a
run whose attempts all fail is still retrying after four steps. -/
theorem c5_backoff_never_expires_witness :
    min 500 5000 ≤ 5000 ∧
    (∃ k, (fun n => if n = 2 then none else some "boom") k = none) ∧
    retryFuel (fun _ => some "boom") engineBackOff 4 0 500 0 = none :=
  ⟨c5_backoff_never_expires.2.2.1 500 0 (min 500 5000)
     (min (500 * 3 / 2) 5000) (by rw [nextBackOff_engine]),
   c5_backoff_never_expires.2.2.2.2.2.1
     (fun n => if n = 2 then none else some "boom") 4 0 500 0 (by decide),
   c5_backoff_never_expires.2.2.2.2.2.2 (fun _ => some "boom") 4 0 500 0
     (fun _ h => Option.noConfusion h)⟩

/-- C8: a CANDIDATE message whose payload fails to deserialize makes the
handler return an error without invoking `OnRemoteCandidate` and leaves the
connection map unchanged; a valid CANDIDATE message for the same peer (the
handler being stateless, it runs against the same map) is still dispatched to
`OnRemoteCandidate`. -/
theorem c8_bad_candidate_isolated (ext : Ext) (conns : ConnMap)
    (msg1 msg2 : Message) (conn1 conn2 : Connection) (e cand : String) :
    (msg1.body.type = BodyType.candidate →
     mapLookup conns msg1.key = some conn1 →
     conn1.config.remoteWgKey = msg1.key →
     ext.unmarshalCandidate msg1.body.payload = Except.error e →
       (receiveSignalHandler ext conns msg1).result
           = Except.error (HandlerErr.candidateParse e) ∧
       (receiveSignalHandler ext conns msg1).calls = [] ∧
       (receiveSignalHandler ext conns msg1).conns = conns) ∧
    (msg2.body.type = BodyType.candidate →
     mapLookup conns msg2.key = some conn2 →
     conn2.config.remoteWgKey = msg2.key →
     ext.unmarshalCandidate msg2.body.payload = Except.ok cand →
     ext.onRemoteCandidate conn2 cand = none →
       (receiveSignalHandler ext conns msg2).calls
           = [Dispatch.dOnRemoteCandidate cand] ∧
       (receiveSignalHandler ext conns msg2).result = Except.ok ()) := by
  constructor
  · intro ht hl hk hu
    simp [receiveSignalHandler, hl, hk, handlerOutcome, ht, hu]
  · intro ht hl hk hu ho
    simp [receiveSignalHandler, hl, hk, handlerOutcome, ht, hu, ho]

/-- Witness for C8: the unparseable CANDIDATE `msgCandBad` followed by the
valid `msgCandGood`, both from `peerA`, against `engineA`. -/
theorem c8_bad_candidate_isolated_witness :
    ((receiveSignalHandler idExt engineA.conns msgCandBad).result
        = Except.error (HandlerErr.candidateParse "failed to parse") ∧
     (receiveSignalHandler idExt engineA.conns msgCandBad).calls = [] ∧
     (receiveSignalHandler idExt engineA.conns msgCandBad).conns
        = engineA.conns) ∧
    ((receiveSignalHandler idExt engineA.conns msgCandGood).calls
        = [Dispatch.dOnRemoteCandidate "cand1"] ∧
     (receiveSignalHandler idExt engineA.conns msgCandGood).result
        = Except.ok ()) :=
  ⟨(c8_bad_candidate_isolated idExt engineA.conns msgCandBad msgCandGood
      connA connA "failed to parse" "cand1").1 (by decide) (by decide)
      (by decide) (by rfl),
   (c8_bad_candidate_isolated idExt engineA.conns msgCandBad msgCandGood
      connA connA "failed to parse" "cand1").2 (by decide) (by decide)
      (by decide) (by rfl) (by rfl)⟩

/-- C9: in every reachable engine state, each connection-map entry stored
under key `k` holds a Connection configured with remote key `k`;
consequently the routing handler's authentication-mismatch branch (the
`unknown peer` error) is unreachable. -/
theorem c9_map_key_invariant (ext : Ext) (e : Engine) (h : Reachable ext e)
    (msg : Message) :
    (∀ k c, mapLookup e.conns k = some c → c.config.remoteWgKey = k) ∧
    (∀ k, (receiveSignalHandler ext e.conns msg).result
        ≠ Except.error (HandlerErr.unknownPeer k)) := by
  have hinv := reachable_keyed h
  constructor
  · intro k c hl
    exact hinv (k, c) (mapLookup_mem hl)
  · intro k
    unfold receiveSignalHandler
    cases hl : mapLookup e.conns msg.key with
    | none => simp
    | some conn =>
      have hk : conn.config.remoteWgKey = msg.key :=
        hinv (msg.key, conn) (mapLookup_mem hl)
      simp only [hk, ne_eq, not_true_eq_false, if_false]
      exact handlerOutcome_not_addressing ext conn msg k

/-- Witness for C9: the engine state reached by opening `peerA` from a fresh
engine, receiving `peerA`'s OFFER. -/
theorem c9_map_key_invariant_witness :
    (receiveSignalHandler idExt
        (openPeerConnection idExt engineEmpty 51820 "me" peerA none).engine.conns
        msgOfferA).result
      ≠ Except.error (HandlerErr.unknownPeer "keyA") :=
  (c9_map_key_invariant idExt
      (openPeerConnection idExt engineEmpty 51820 "me" peerA none).engine
      (Reachable.openStep engineEmpty 51820 "me" peerA none
        (Reachable.init [] "wt0" "10.0.0.1" []))
      msgOfferA).2 "keyA"

end Wiretrustee
